import Mathlib

/-!
Shallow embedding of `rollingcv` (src/rollingcv/splitter.py): a rolling-window
time-series cross-validation splitter.  Python ints are modelled as `Int`,
sequence lengths as `Nat`, Python floats as exact rationals `Rat` (the spec's
arithmetic is stated over exact `round_down(window_size * N)`), and each
`raise ValueError(msg)` site as an `Except.error` carrying the error kind of
the spec's taxonomy (InvalidConfig / InvalidGeometry / InsufficientData).
`np.arange(a, b)` is modelled as the list of integers in `[a, b)`.
-/

/-- The dynamic `int`-or-`float` type of the `window_size` / `horizon`
parameters: `absolute` is a Python `int` (absolute sample count), `fraction`
is a Python `float` (fraction of N), modelled as an exact rational. -/
inductive Size where
  | absolute : Int → Size
  | fraction : Rat → Size
deriving DecidableEq, Repr

/-- Error kinds of the spec's taxonomy.  In the Python source every kind is a
`ValueError`; the kind is determined by the raise site and its message. -/
inductive Err where
  | invalidConfig
  | invalidGeometry
  | insufficientData
deriving DecidableEq, Repr

/-- The `str(e)` message of each raise site in splitter.py. -/
def errMsg : Err → String
  | .invalidConfig => "Invalid style. Use 'default' or 'bar'."
  | .invalidGeometry => "window_size and horizon must be greater than 0."
  | .insufficientData => "Not enough data to create the requested number of splits."

/-- One fold: the `(train_idx, test_idx)` pair yielded by `split`
(`np.arange` arrays modelled as lists of indices). -/
structure Fold where
  train : List Int
  test : List Int
deriving DecidableEq, Repr

/-- `np.arange(a, b)`: the integers of the half-open interval `[a, b)`. -/
def intRange (a b : Int) : List Int :=
  (List.range (b - a).toNat).map (fun (k : Nat) => a + (k : Int))

/-- Python `int()` applied to a rational: truncation toward zero. -/
def ratTrunc (q : Rat) : Int :=
  if 0 ≤ q then ⌊q⌋ else ⌈q⌉

/-- `isinstance(x, float)` on a `window_size` / `horizon` value. -/
def Size.isFloat : Size → Bool
  | .absolute _ => false
  | .fraction _ => true

/-- The numeric value of a `window_size` / `horizon` parameter, as used by
Python's polymorphic comparisons (`window_size < 0` etc.). -/
def Size.val : Size → Rat
  | .absolute k => (k : Rat)
  | .fraction f => f

/-- The configuration fields stored by `RollingWindowSplit.__init__`. -/
structure RollingWindowSplit where
  n_splits : Int
  window_size : Size
  horizon : Size
  gap : Int
deriving DecidableEq, Repr

deriving instance DecidableEq for Except

namespace RollingWindowSplit

/-- `RollingWindowSplit.__init__(n_splits, window_size, horizon, gap)`:
validates the configuration eagerly and stores the fields unchanged. -/
def init (n_splits : Int) (window_size horizon : Size) (gap : Int) :
    Except Err RollingWindowSplit :=
  if n_splits < 2 then
    .error .invalidConfig
  else if window_size.isFloat ∧ ¬(0 < window_size.val ∧ window_size.val ≤ 1) then
    .error .invalidConfig
  else if horizon.isFloat ∧ ¬(0 < horizon.val ∧ horizon.val ≤ 1) then
    .error .invalidConfig
  else if window_size.val < 0 ∨ horizon.val < 0 ∨ gap < 0 then
    .error .invalidConfig
  else
    .ok ⟨n_splits, window_size, horizon, gap⟩

/-- Resolution of a size parameter against `n_samples`:
`int(self.window_size * n_samples) if isinstance(self.window_size, float)
else self.window_size`. -/
def resolveSize (s : Size) (n : Nat) : Int :=
  match s with
  | .absolute k => k
  | .fraction f => ratTrunc (f * (n : Rat))

/-- `window_size` as resolved at split time (line 36 of splitter.py). -/
def wsizeAbs (c : RollingWindowSplit) (n : Nat) : Int :=
  resolveSize c.window_size n

/-- `horizon` as resolved at split time (line 37 of splitter.py). -/
def hsizeAbs (c : RollingWindowSplit) (n : Nat) : Int :=
  resolveSize c.horizon n

/-- `total_required = window_size + self.gap + horizon + (self.n_splits - 1)`. -/
def totalRequired (c : RollingWindowSplit) (n : Nat) : Int :=
  wsizeAbs c n + c.gap + hsizeAbs c n + (c.n_splits - 1)

/-- `max_start = n_samples - window_size - self.gap - horizon`. -/
def maxStart (c : RollingWindowSplit) (n : Nat) : Int :=
  (n : Int) - wsizeAbs c n - c.gap - hsizeAbs c n

/-- `step = max_start // (self.n_splits - 1)` (Python floor division). -/
def stepOf (c : RollingWindowSplit) (n : Nat) : Int :=
  (maxStart c n).fdiv (c.n_splits - 1)

/-- The fold produced for loop index `i`:
`start = i * step; train_idx = np.arange(start, start + window_size);
test_start = start + window_size + self.gap;
test_idx = np.arange(test_start, test_start + horizon)`. -/
def foldAt (c : RollingWindowSplit) (n : Nat) (i : Nat) : Fold :=
  let start := (i : Int) * stepOf c n
  let test_start := start + wsizeAbs c n + c.gap
  { train := intRange start (start + wsizeAbs c n)
    test := intRange test_start (test_start + hsizeAbs c n) }

/-- The finite sequence of folds produced by the generator loop
`for i in range(self.n_splits)`. -/
def foldsOf (c : RollingWindowSplit) (n : Nat) : List Fold :=
  (List.range c.n_splits.toNat).map (foldAt c n)

/-- `RollingWindowSplit.split(X)` with `n = len(X)`: resolve sizes, check
geometry and feasibility, then yield the folds in increasing index order. -/
def split (c : RollingWindowSplit) (n : Nat) : Except Err (List Fold) :=
  if wsizeAbs c n ≤ 0 ∨ hsizeAbs c n ≤ 0 then
    .error .invalidGeometry
  else if (n : Int) < totalRequired c n then
    .error .insufficientData
  else
    .ok (foldsOf c n)

/-- One call of the `split` method on the splitter object, as a state
transformer: the body of `split` reads the four stored fields and assigns
nothing to `self`, so the post-call state is the pre-call state. -/
def splitCall (c : RollingWindowSplit) (n : Nat) :
    Except Err (List Fold) × RollingWindowSplit :=
  (split c n, c)

/-- The scaled cell of an absolute sample position in the bar view:
`int((idx / n) * width)` (exact rational arithmetic). -/
def cellOf (idx : Int) (n : Nat) (width : Int) : Int :=
  ratTrunc ((idx : Rat) / (n : Rat) * (width : Rat))

/-- The cell indices written with `train_char` for one fold:
`range(train_start, min(train_end + 1, width))` where
`train_start = int((train_idx[0] / n) * width)` and
`train_end = int((train_idx[-1] / n) * width)`. -/
def trainCells (f : Fold) (n : Nat) (width : Int) : List Int :=
  intRange (cellOf (f.train.headD 0) n width)
    (min (cellOf (f.train.getLastD 0) n width + 1) width)

/-- The cell indices written with `test_char` for one fold:
`range(test_start, min(test_end + 1, width))`. -/
def testCells (f : Fold) (n : Nat) (width : Int) : List Int :=
  intRange (cellOf (f.test.headD 0) n width)
    (min (cellOf (f.test.getLastD 0) n width + 1) width)

/-- The display line of one fold in the `bar` style: `width` blank cells
(`line = [' '] * width`), the train cells painted first
(`for j in range(train_start, min(train_end + 1, width)): line[j] = train_char`),
then the test cells painted over them. -/
def barLineFor (n : Nat) (width : Int) (train_char test_char : Char)
    (f : Fold) : List Char :=
  (testCells f n width).foldl (fun l j => l.set j.toNat test_char)
    ((trainCells f n width).foldl (fun l j => l.set j.toNat train_char)
      (List.replicate width.toNat ' '))

/-- The lines printed for one fold in the `default` style. -/
def defaultFoldLines (i : Nat) (f : Fold) : List String :=
  ["Fold " ++ toString (i + 1) ++ ":",
   "  Train: " ++ toString (f.train.headD 0) ++ " -> " ++ toString (f.train.getLastD 0)
     ++ "  (len=" ++ toString f.train.length ++ ")",
   "  Test : " ++ toString (f.test.headD 0) ++ " -> " ++ toString (f.test.getLastD 0)
     ++ "  (len=" ++ toString f.test.length ++ ")",
   ""]

/-- `RollingWindowSplit.preview(X, width, style, train_char, test_char)` with
`n = len(X)`: its console output modelled as the list of printed lines.
The `try: splits = list(self.split(X)) except ValueError` block catches the
data-dependent errors, prints a diagnostic plus a hint, and returns; the
style dispatch happens only after a successful generation, and an unknown
style raises (uncaught, since it is outside the `try`). -/
def preview (c : RollingWindowSplit) (n : Nat) (width : Int) (style : String)
    (train_char test_char : Char) : Except Err (List String) :=
  match split c n with
  | .error e =>
      .ok ["RollingWindowSplit error: " ++ errMsg e,
           "Hint: Try reducing n_splits, window_size, or horizon."]
  | .ok splits =>
      if style = "default" then
        .ok (("RollingWindowSplit: " ++ toString c.n_splits ++ " folds")
          :: (splits.enum.map (fun p => defaultFoldLines p.1 p.2)).flatten)
      else if style = "bar" then
        .ok (("RollingWindowSplit Visual Preview (width=" ++ toString width ++ "):")
          :: splits.enum.map (fun p =>
               "Fold " ++ toString (p.1 + 1) ++ ": "
                 ++ String.mk (barLineFor n width train_char test_char p.2)))
      else
        .error .invalidConfig

/-- The documented default configuration `RollingWindowSplit()`:
`n_splits=5, window_size=0.6, horizon=0.1, gap=0`. -/
def cfgDefault : RollingWindowSplit :=
  ⟨5, Size.fraction (6/10), Size.fraction (1/10), 0⟩

end RollingWindowSplit

namespace RollingWindowSplit

theorem mem_intRange {a b j : Int} : j ∈ intRange a b ↔ a ≤ j ∧ j < b := by
  unfold intRange
  rw [List.mem_map]
  constructor
  · rintro ⟨k, hk, rfl⟩
    rw [List.mem_range] at hk
    omega
  · rintro ⟨h1, h2⟩
    refine ⟨(j - a).toNat, List.mem_range.mpr (by omega), by omega⟩

theorem intRange_headD {a b : Int} (h : a < b) : (intRange a b).headD 0 = a := by
  unfold intRange
  have hb : (b - a).toNat = (b - a - 1).toNat + 1 := by omega
  rw [hb, List.range_succ_eq_map]
  simp only [List.map_cons, List.headD_cons, Nat.cast_zero, add_zero]

theorem intRange_getLastD {a b : Int} (h : a < b) :
    (intRange a b).getLastD 0 = b - 1 := by
  unfold intRange
  have hb : (b - a).toNat = (b - a - 1).toNat + 1 := by omega
  rw [hb, List.range_succ, List.map_append]
  simp only [List.map_cons, List.map_nil, List.getLastD_concat]
  omega

theorem intRange_length {a b : Int} : (intRange a b).length = (b - a).toNat := by
  simp [intRange]

theorem init_ok_iff {ns : Int} {ws hz : Size} {gp : Int} {c : RollingWindowSplit} :
    init ns ws hz gp = Except.ok c ↔
      ¬ns < 2 ∧ ¬(ws.isFloat ∧ ¬(0 < ws.val ∧ ws.val ≤ 1)) ∧
      ¬(hz.isFloat ∧ ¬(0 < hz.val ∧ hz.val ≤ 1)) ∧
      ¬(ws.val < 0 ∨ hz.val < 0 ∨ gp < 0) ∧ c = ⟨ns, ws, hz, gp⟩ := by
  unfold init
  split_ifs with h1 h2 h3 h4
  · simp only [reduceCtorEq, false_iff]; tauto
  · simp only [reduceCtorEq, false_iff]; tauto
  · simp only [reduceCtorEq, false_iff]; tauto
  · simp only [reduceCtorEq, false_iff]; tauto
  · constructor
    · intro heq
      have hc : c = ⟨ns, ws, hz, gp⟩ := (Except.ok.injEq _ _ ▸ congrArg id heq) ▸ rfl
      exact ⟨h1, h2, h3, h4, by cases heq; rfl⟩
    · rintro ⟨-, -, -, -, rfl⟩
      rfl

theorem split_ok_iff {c : RollingWindowSplit} {n : Nat} {folds : List Fold} :
    split c n = Except.ok folds ↔
      0 < wsizeAbs c n ∧ 0 < hsizeAbs c n ∧ totalRequired c n ≤ (n : Int) ∧
      folds = foldsOf c n := by
  unfold split
  split_ifs with h1 h2
  · simp only [reduceCtorEq, false_iff]
    rintro ⟨hw, hh, -, -⟩
    omega
  · simp only [reduceCtorEq, false_iff]
    rintro ⟨-, -, ht, -⟩
    omega
  · simp only [Except.ok.injEq]
    constructor
    · rintro rfl
      exact ⟨by omega, by omega, by omega, rfl⟩
    · rintro ⟨-, -, -, rfl⟩
      rfl

end RollingWindowSplit

namespace RollingWindowSplit

theorem init_ok_fields {ns : Int} {ws hz : Size} {gp : Int} {c : RollingWindowSplit}
    (h : init ns ws hz gp = Except.ok c) :
    2 ≤ c.n_splits ∧ 0 ≤ c.gap ∧
    (∀ f : Rat, c.window_size = Size.fraction f → 0 < f ∧ f ≤ 1) ∧
    (∀ f : Rat, c.horizon = Size.fraction f → 0 < f ∧ f ≤ 1) := by
  obtain ⟨h1, h2, h3, h4, rfl⟩ := init_ok_iff.mp h
  push_neg at h4
  refine ⟨?_, ?_, ?_, ?_⟩
  · show (2 : Int) ≤ ns
    omega
  · show (0 : Int) ≤ gp
    omega
  · rintro f rfl
    simp only [Size.isFloat, Size.val] at h2
    tauto
  · rintro f rfl
    simp only [Size.isFloat, Size.val] at h3
    tauto

theorem ratTrunc_eq_floor {q : Rat} (h : 0 ≤ q) : ratTrunc q = ⌊q⌋ := by
  unfold ratTrunc
  rw [if_pos h]

theorem split_ok_geometry {ns : Int} {ws hz : Size} {gp : Int}
    {c : RollingWindowSplit} {n : Nat} {folds : List Fold}
    (hinit : init ns ws hz gp = Except.ok c)
    (hsplit : split c n = Except.ok folds) :
    0 < wsizeAbs c n ∧ 0 < hsizeAbs c n ∧ 0 ≤ c.gap ∧ 2 ≤ c.n_splits ∧
    c.n_splits - 1 ≤ maxStart c n ∧ 1 ≤ stepOf c n ∧
    stepOf c n * (c.n_splits - 1) ≤ maxStart c n ∧
    maxStart c n = (n : Int) - wsizeAbs c n - c.gap - hsizeAbs c n := by
  obtain ⟨hk, hg, -, -⟩ := init_ok_fields hinit
  obtain ⟨hw, hh, htot, -⟩ := split_ok_iff.mp hsplit
  have hms : c.n_splits - 1 ≤ maxStart c n := by
    unfold totalRequired at htot
    unfold maxStart
    omega
  have hdvd : stepOf c n = maxStart c n / (c.n_splits - 1) := by
    unfold stepOf
    exact Int.fdiv_eq_ediv _ (by omega)
  have hstep : 1 ≤ stepOf c n := by
    rw [hdvd, Int.le_ediv_iff_mul_le (by omega)]
    omega
  have hmul : stepOf c n * (c.n_splits - 1) ≤ maxStart c n := by
    rw [hdvd]
    have h1 := Int.ediv_add_emod (maxStart c n) (c.n_splits - 1)
    have h2 := Int.emod_nonneg (maxStart c n) (show c.n_splits - 1 ≠ 0 by omega)
    rw [mul_comm]
    omega
  exact ⟨hw, hh, hg, hk, hms, hstep, hmul, rfl⟩

theorem foldsOf_getElem {c : RollingWindowSplit} {n : Nat} {i : Nat}
    (hi : i < c.n_splits.toNat) :
    (foldsOf c n)[i]? = some (foldAt c n i) := by
  unfold foldsOf
  rw [List.getElem?_map, List.getElem?_range hi]
  rfl

theorem foldsOf_length {c : RollingWindowSplit} {n : Nat} :
    (foldsOf c n).length = c.n_splits.toNat := by
  simp [foldsOf]

theorem mem_foldsOf {c : RollingWindowSplit} {n : Nat} {f : Fold} :
    f ∈ foldsOf c n ↔ ∃ i : Nat, i < c.n_splits.toNat ∧ f = foldAt c n i := by
  unfold foldsOf
  rw [List.mem_map]
  constructor
  · rintro ⟨i, hi, rfl⟩
    exact ⟨i, List.mem_range.mp hi, rfl⟩
  · rintro ⟨i, hi, rfl⟩
    exact ⟨i, List.mem_range.mpr hi, rfl⟩

end RollingWindowSplit

namespace RollingWindowSplit

/-- Bounds for one fold of a successful split: fold `i` has
`train = [i*step, i*step + w)` and `test = [i*step + w + gap, i*step + w + gap + h)`,
and all indices fit into `[0, n)` with the train window strictly before the
test window. -/
theorem foldAt_bounds {ns : Int} {ws hz : Size} {gp : Int}
    {c : RollingWindowSplit} {n : Nat} {folds : List Fold}
    (hinit : init ns ws hz gp = Except.ok c)
    (hsplit : split c n = Except.ok folds)
    {i : Nat} (hi : i < c.n_splits.toNat) :
    (∀ j ∈ (foldAt c n i).train, 0 ≤ j ∧ j < (n : Int)) ∧
    (∀ j ∈ (foldAt c n i).test, 0 ≤ j ∧ j < (n : Int)) ∧
    (∀ jt ∈ (foldAt c n i).train, ∀ js ∈ (foldAt c n i).test, jt < js) := by
  obtain ⟨hw, hh, hg, hk, hms, hstep, hmul, hmsdef⟩ := split_ok_geometry hinit hsplit
  have hik : (i : Int) ≤ c.n_splits - 1 := by omega
  have hmono : (i : Int) * stepOf c n ≤ (c.n_splits - 1) * stepOf c n :=
    mul_le_mul_of_nonneg_right hik (by omega)
  have hcomm : (c.n_splits - 1) * stepOf c n = stepOf c n * (c.n_splits - 1) := mul_comm _ _
  have hstart0 : 0 ≤ (i : Int) * stepOf c n :=
    mul_nonneg (Int.natCast_nonneg i) (by omega)
  refine ⟨?_, ?_, ?_⟩
  · intro j hj
    rw [show (foldAt c n i).train =
        intRange ((i : Int) * stepOf c n) ((i : Int) * stepOf c n + wsizeAbs c n) from rfl,
      mem_intRange] at hj
    constructor
    · omega
    · have : (i : Int) * stepOf c n ≤ maxStart c n := by omega
      omega
  · intro j hj
    rw [show (foldAt c n i).test =
        intRange ((i : Int) * stepOf c n + wsizeAbs c n + c.gap)
          ((i : Int) * stepOf c n + wsizeAbs c n + c.gap + hsizeAbs c n) from rfl,
      mem_intRange] at hj
    constructor
    · omega
    · have : (i : Int) * stepOf c n ≤ maxStart c n := by omega
      omega
  · intro jt hjt js hjs
    rw [show (foldAt c n i).train =
        intRange ((i : Int) * stepOf c n) ((i : Int) * stepOf c n + wsizeAbs c n) from rfl,
      mem_intRange] at hjt
    rw [show (foldAt c n i).test =
        intRange ((i : Int) * stepOf c n + wsizeAbs c n + c.gap)
          ((i : Int) * stepOf c n + wsizeAbs c n + c.gap + hsizeAbs c n) from rfl,
      mem_intRange] at hjs
    omega

/-- C1: for every constructor-accepted configuration and every `n` on which
`split` succeeds, the result has exactly `n_splits` folds, and the fold at
position `i` has train range `[i*step, i*step + window_size_abs)` and test
range `[i*step + window_size_abs + gap, i*step + window_size_abs + gap + horizon_abs)`,
with `step = maxStart // (n_splits - 1)` and
`maxStart = n - window_size_abs - gap - horizon_abs` (the definitions of
`stepOf` and `maxStart`). -/
theorem c1_split_fold_geometry
    (ns : Int) (ws hz : Size) (gp : Int) (c : RollingWindowSplit) (n : Nat)
    (folds : List Fold)
    (hinit : init ns ws hz gp = Except.ok c)
    (hsplit : split c n = Except.ok folds) :
    folds.length = c.n_splits.toNat ∧
    ∀ i : Nat, i < c.n_splits.toNat →
      folds[i]? = some
        { train := intRange ((i : Int) * stepOf c n)
            ((i : Int) * stepOf c n + wsizeAbs c n)
          test := intRange ((i : Int) * stepOf c n + wsizeAbs c n + c.gap)
            ((i : Int) * stepOf c n + wsizeAbs c n + c.gap + hsizeAbs c n) } := by
  obtain ⟨-, -, -, rfl⟩ := split_ok_iff.mp hsplit
  refine ⟨foldsOf_length, ?_⟩
  intro i hi
  rw [foldsOf_getElem hi]
  rfl

/-- C2: for every constructor-accepted configuration and every `n` whose
resolved window and horizon sizes are positive, `split` fails with
InsufficientData exactly when `n < window_size_abs + gap + horizon_abs + (n_splits - 1)`,
and otherwise yields folds without failing. -/
theorem c2_insufficient_data_iff
    (ns : Int) (ws hz : Size) (gp : Int) (c : RollingWindowSplit) (n : Nat)
    (hinit : init ns ws hz gp = Except.ok c)
    (hw : 0 < wsizeAbs c n) (hh : 0 < hsizeAbs c n) :
    (split c n = Except.error Err.insufficientData ↔
      (n : Int) < wsizeAbs c n + c.gap + hsizeAbs c n + (c.n_splits - 1)) ∧
    (wsizeAbs c n + c.gap + hsizeAbs c n + (c.n_splits - 1) ≤ (n : Int) →
      ∃ folds, split c n = Except.ok folds) := by
  have htot : totalRequired c n = wsizeAbs c n + c.gap + hsizeAbs c n + (c.n_splits - 1) := rfl
  constructor
  · unfold split
    rw [if_neg (by omega)]
    split_ifs with h
    · simp only [true_iff]
      omega
    · simp only [reduceCtorEq, false_iff]
      omega
  · intro hge
    refine ⟨foldsOf c n, ?_⟩
    unfold split
    rw [if_neg (by omega), if_neg (by omega)]

end RollingWindowSplit

namespace RollingWindowSplit

/-- C3: at split time, for a constructor-accepted configuration, the resolved
absolute training size is `⌊window_size * n⌋` when `window_size` is a fraction
and `window_size` itself when it is an integer (likewise for the horizon), and
`split` fails with InvalidGeometry exactly when a resolved size is `≤ 0`. -/
theorem c3_resolution_and_geometry_error
    (ns : Int) (ws hz : Size) (gp : Int) (c : RollingWindowSplit) (n : Nat)
    (hinit : init ns ws hz gp = Except.ok c) :
    (∀ f : Rat, c.window_size = Size.fraction f → wsizeAbs c n = ⌊f * (n : Rat)⌋) ∧
    (∀ k : Int, c.window_size = Size.absolute k → wsizeAbs c n = k) ∧
    (∀ f : Rat, c.horizon = Size.fraction f → hsizeAbs c n = ⌊f * (n : Rat)⌋) ∧
    (∀ k : Int, c.horizon = Size.absolute k → hsizeAbs c n = k) ∧
    (split c n = Except.error Err.invalidGeometry ↔
      wsizeAbs c n ≤ 0 ∨ hsizeAbs c n ≤ 0) := by
  obtain ⟨-, -, hwf, hhf⟩ := init_ok_fields hinit
  refine ⟨?_, ?_, ?_, ?_, ?_⟩
  · intro f hf
    have hpos := (hwf f hf).1
    unfold wsizeAbs resolveSize
    rw [hf]
    exact ratTrunc_eq_floor (mul_nonneg (le_of_lt hpos) (Nat.cast_nonneg n))
  · intro k hk
    unfold wsizeAbs resolveSize
    rw [hk]
  · intro f hf
    have hpos := (hhf f hf).1
    unfold hsizeAbs resolveSize
    rw [hf]
    exact ratTrunc_eq_floor (mul_nonneg (le_of_lt hpos) (Nat.cast_nonneg n))
  · intro k hk
    unfold hsizeAbs resolveSize
    rw [hk]
  · unfold split
    split_ifs with h1 h2
    · exact iff_of_true rfl (by omega)
    · simp only [Except.error.injEq, reduceCtorEq, false_iff]
      omega
    · simp only [reduceCtorEq, false_iff]
      omega

/-- C4: every index of every fold of a successful split lies in `[0, n)`,
`step * (n_splits - 1) + window_size_abs + gap + horizon_abs ≤ n`, and within
each fold every train index is strictly below every test index. -/
theorem c4_index_bounds_no_leakage
    (ns : Int) (ws hz : Size) (gp : Int) (c : RollingWindowSplit) (n : Nat)
    (folds : List Fold)
    (hinit : init ns ws hz gp = Except.ok c)
    (hsplit : split c n = Except.ok folds) :
    stepOf c n * (c.n_splits - 1) + wsizeAbs c n + c.gap + hsizeAbs c n ≤ (n : Int) ∧
    ∀ f ∈ folds,
      (∀ j ∈ f.train, 0 ≤ j ∧ j < (n : Int)) ∧
      (∀ j ∈ f.test, 0 ≤ j ∧ j < (n : Int)) ∧
      (∀ jt ∈ f.train, ∀ js ∈ f.test, jt < js) := by
  obtain ⟨hw, hh, hg, hk, hms, hstep, hmul, hmsdef⟩ := split_ok_geometry hinit hsplit
  constructor
  · omega
  · intro f hf
    obtain ⟨-, -, -, heq⟩ := split_ok_iff.mp hsplit
    rw [heq, mem_foldsOf] at hf
    obtain ⟨i, hi, rfl⟩ := hf
    exact foldAt_bounds hinit hsplit hi

/-- C10: whenever the feasibility check passes and `split` succeeds, the
computed step is at least 1, consecutive folds have strictly increasing
train-start indices, and no two yielded folds are identical. -/
theorem c10_step_positive_distinct_folds
    (ns : Int) (ws hz : Size) (gp : Int) (c : RollingWindowSplit) (n : Nat)
    (folds : List Fold)
    (hinit : init ns ws hz gp = Except.ok c)
    (hsplit : split c n = Except.ok folds) :
    1 ≤ stepOf c n ∧
    (∀ i : Nat, i + 1 < folds.length →
      ∀ fi fj : Fold, folds[i]? = some fi → folds[i + 1]? = some fj →
        fi.train.headD 0 < fj.train.headD 0) ∧
    folds.Nodup := by
  obtain ⟨hw, hh, hg, hk, hms, hstep, hmul, hmsdef⟩ := split_ok_geometry hinit hsplit
  obtain ⟨-, -, -, rfl⟩ := split_ok_iff.mp hsplit
  have hhead : ∀ i : Nat, (foldAt c n i).train.headD 0 = (i : Int) * stepOf c n := by
    intro i
    rw [show (foldAt c n i).train =
        intRange ((i : Int) * stepOf c n) ((i : Int) * stepOf c n + wsizeAbs c n) from rfl]
    exact intRange_headD (by omega)
  refine ⟨hstep, ?_, ?_⟩
  · intro i hi fi fj hfi hfj
    rw [foldsOf_length] at hi
    rw [foldsOf_getElem (by omega)] at hfi
    rw [foldsOf_getElem (by omega)] at hfj
    cases hfi
    cases hfj
    rw [hhead i, hhead (i + 1)]
    have hexp : ((i : Int) + 1) * stepOf c n = (i : Int) * stepOf c n + stepOf c n := by
      ring
    push_cast
    omega
  · unfold foldsOf
    refine List.Nodup.map_on ?_ (List.nodup_range _)
    intro i hi j hj hfij
    have heads : (foldAt c n i).train.headD 0 = (foldAt c n j).train.headD 0 :=
      congrArg (fun f => f.train.headD 0) hfij
    rw [hhead i, hhead j] at heads
    have hstep0 : stepOf c n ≠ 0 := by omega
    have hij : (i : Int) = (j : Int) := mul_right_cancel₀ hstep0 heads
    exact_mod_cast hij

end RollingWindowSplit

namespace RollingWindowSplit

theorem size_badFrac_iff (s : Size) :
    (s.isFloat ∧ ¬(0 < s.val ∧ s.val ≤ 1)) ↔
      ∃ f : Rat, s = Size.fraction f ∧ ¬(0 < f ∧ f ≤ 1) := by
  cases s <;> simp [Size.isFloat, Size.val]

/-- C5: the constructor fails with InvalidConfig exactly when `n_splits < 2`,
or `window_size` or `horizon` is a fraction outside `(0, 1]`, or any of
`window_size`, `horizon`, `gap` is negative; any other combination is
accepted with the four fields stored unchanged. -/
theorem c5_constructor_validation (ns : Int) (ws hz : Size) (gp : Int) :
    (init ns ws hz gp = Except.error Err.invalidConfig ↔
      ns < 2 ∨ (∃ f : Rat, ws = Size.fraction f ∧ ¬(0 < f ∧ f ≤ 1)) ∨
      (∃ f : Rat, hz = Size.fraction f ∧ ¬(0 < f ∧ f ≤ 1)) ∨
      ws.val < 0 ∨ hz.val < 0 ∨ gp < 0) ∧
    (init ns ws hz gp = Except.ok ⟨ns, ws, hz, gp⟩ ↔
      ¬(ns < 2 ∨ (∃ f : Rat, ws = Size.fraction f ∧ ¬(0 < f ∧ f ≤ 1)) ∨
        (∃ f : Rat, hz = Size.fraction f ∧ ¬(0 < f ∧ f ≤ 1)) ∨
        ws.val < 0 ∨ hz.val < 0 ∨ gp < 0)) := by
  simp only [← size_badFrac_iff]
  constructor
  · unfold init
    split_ifs with h1 h2 h3 h4
    · exact iff_of_true rfl (by tauto)
    · exact iff_of_true rfl (by tauto)
    · exact iff_of_true rfl (by tauto)
    · exact iff_of_true rfl (by tauto)
    · simp only [reduceCtorEq, false_iff]
      tauto
  · rw [init_ok_iff]
    constructor
    · rintro ⟨h1, h2, h3, h4, -⟩
      rw [not_or, not_or, not_or]
      exact ⟨h1, h2, h3, h4⟩
    · intro h
      rw [not_or, not_or, not_or] at h
      exact ⟨h.1, h.2.1, h.2.2.1, h.2.2.2, rfl⟩

/-- C6: `split` is deterministic and re-entrant: a call leaves the splitter
state unchanged, a second call on the post-call state returns the identical
fold sequence, and the returned sequence is a pure value of the
configuration and `n` (no hidden state between calls). -/
theorem c6_split_deterministic_reentrant (c : RollingWindowSplit) (n : Nat) :
    (splitCall c n).2 = c ∧
    (splitCall (splitCall c n).2 n).1 = (splitCall c n).1 ∧
    (splitCall c n).1 = split c n :=
  ⟨rfl, rfl, rfl⟩

/-- C7: when `split` inside `preview` fails with InvalidGeometry or
InsufficientData, `preview` catches it and returns normally with a printed
diagnostic plus the remediation hint, while a direct `split` call surfaces
the same error unchanged. -/
theorem c7_preview_catches_data_errors
    (c : RollingWindowSplit) (n : Nat) (width : Int) (style : String)
    (tc sc : Char) (e : Err)
    (hsplit : split c n = Except.error e)
    (he : e = Err.invalidGeometry ∨ e = Err.insufficientData) :
    preview c n width style tc sc =
      Except.ok ["RollingWindowSplit error: " ++ errMsg e,
        "Hint: Try reducing n_splits, window_size, or horizon."] ∧
    split c n = Except.error e := by
  refine ⟨?_, hsplit⟩
  unfold preview
  rw [hsplit]

/-- The amended C8: when fold generation succeeds, any style other than
`default` or `bar` makes `preview` fail with InvalidConfig, uncaught by the
internal error handling. -/
theorem c8_amended_style_validation
    (c : RollingWindowSplit) (n : Nat) (folds : List Fold) (width : Int)
    (style : String) (tc sc : Char)
    (hsplit : split c n = Except.ok folds)
    (h1 : style ≠ "default") (h2 : style ≠ "bar") :
    preview c n width style tc sc = Except.error Err.invalidConfig := by
  unfold preview
  rw [hsplit]
  simp only [h1, h2, if_false, ite_false]

end RollingWindowSplit

namespace RollingWindowSplit

theorem cellOf_eq_floor {j : Int} (n : Nat) {width : Int} (hj : 0 ≤ j) (hw : 0 ≤ width) :
    cellOf j n width = ⌊(j : Rat) / (n : Rat) * (width : Rat)⌋ := by
  unfold cellOf
  exact ratTrunc_eq_floor
    (mul_nonneg (div_nonneg (by exact_mod_cast hj) (Nat.cast_nonneg n)) (by exact_mod_cast hw))

theorem cellOf_nonneg {j : Int} (n : Nat) {width : Int} (hj : 0 ≤ j) (hw : 0 ≤ width) :
    0 ≤ cellOf j n width := by
  rw [cellOf_eq_floor n hj hw]
  exact Int.floor_nonneg.mpr
    (mul_nonneg (div_nonneg (by exact_mod_cast hj) (Nat.cast_nonneg n)) (by exact_mod_cast hw))

theorem foldl_set_length {α : Type} (ch : α) (js : List Int) (l : List α) :
    (js.foldl (fun acc j => acc.set j.toNat ch) l).length = l.length := by
  induction js generalizing l with
  | nil => rfl
  | cons j js ih => rw [List.foldl_cons, ih, List.length_set]

/-- C9: in the `bar` style with positive width, the fold ranges are mapped
to cells by `floor(sample_index / n * width)`, the end cells are clamped so
no painted cell reaches `width`, every write into the display line lies in
`[0, width)`, and the line keeps exactly `width` cells. -/
theorem c9_bar_cells_in_bounds
    (ns : Int) (ws hz : Size) (gp : Int) (c : RollingWindowSplit) (n : Nat)
    (folds : List Fold) (width : Int) (tc sc : Char)
    (hinit : init ns ws hz gp = Except.ok c)
    (hsplit : split c n = Except.ok folds)
    (hw : 0 < width) :
    ∀ f ∈ folds,
      (∀ j ∈ f.train, cellOf j n width = ⌊(j : Rat) / (n : Rat) * (width : Rat)⌋) ∧
      (∀ j ∈ f.test, cellOf j n width = ⌊(j : Rat) / (n : Rat) * (width : Rat)⌋) ∧
      (∀ j ∈ trainCells f n width, 0 ≤ j ∧ j < width) ∧
      (∀ j ∈ testCells f n width, 0 ≤ j ∧ j < width) ∧
      (barLineFor n width tc sc f).length = width.toNat := by
  obtain ⟨hwpos, hhpos, hg, hk, hms, hstep, hmul, hmsdef⟩ := split_ok_geometry hinit hsplit
  have hfolds := split_ok_iff.mp hsplit
  intro f hf
  rw [hfolds.2.2.2, mem_foldsOf] at hf
  obtain ⟨i, hi, rfl⟩ := hf
  have hbounds := foldAt_bounds hinit hsplit hi
  have hw0 : (0 : Int) ≤ width := le_of_lt hw
  have hstart0 : 0 ≤ (i : Int) * stepOf c n :=
    mul_nonneg (Int.natCast_nonneg i) (by omega)
  have htrain : (foldAt c n i).train =
      intRange ((i : Int) * stepOf c n) ((i : Int) * stepOf c n + wsizeAbs c n) := rfl
  have htest : (foldAt c n i).test =
      intRange ((i : Int) * stepOf c n + wsizeAbs c n + c.gap)
        ((i : Int) * stepOf c n + wsizeAbs c n + c.gap + hsizeAbs c n) := rfl
  refine ⟨?_, ?_, ?_, ?_, ?_⟩
  · intro j hj
    exact cellOf_eq_floor n (hbounds.1 j hj).1 hw0
  · intro j hj
    exact cellOf_eq_floor n ((hbounds.2.1) j hj).1 hw0
  · intro j hj
    unfold trainCells at hj
    rw [mem_intRange] at hj
    have hhead : (foldAt c n i).train.headD 0 = (i : Int) * stepOf c n := by
      rw [htrain]
      exact intRange_headD (by omega)
    have h0 : 0 ≤ cellOf ((foldAt c n i).train.headD 0) n width := by
      rw [hhead]
      exact cellOf_nonneg n hstart0 hw0
    have hmin := min_le_right (cellOf ((foldAt c n i).train.getLastD 0) n width + 1) width
    omega
  · intro j hj
    unfold testCells at hj
    rw [mem_intRange] at hj
    have hhead : (foldAt c n i).test.headD 0 =
        (i : Int) * stepOf c n + wsizeAbs c n + c.gap := by
      rw [htest]
      exact intRange_headD (by omega)
    have h0 : 0 ≤ cellOf ((foldAt c n i).test.headD 0) n width := by
      rw [hhead]
      exact cellOf_nonneg n (by omega) hw0
    have hmin := min_le_right (cellOf ((foldAt c n i).test.getLastD 0) n width + 1) width
    omega
  · unfold barLineFor
    rw [foldl_set_length, foldl_set_length, List.length_replicate]

end RollingWindowSplit

namespace RollingWindowSplit

theorem init_cfgDefault :
    init 5 (Size.fraction (6/10)) (Size.fraction (1/10)) 0 = Except.ok cfgDefault := by
  unfold init cfgDefault
  norm_num [Size.isFloat, Size.val]

theorem wsizeAbs_cfgDefault_10 : wsizeAbs cfgDefault 10 = 6 := by
  unfold wsizeAbs resolveSize cfgDefault ratTrunc
  norm_num

theorem hsizeAbs_cfgDefault_10 : hsizeAbs cfgDefault 10 = 1 := by
  unfold hsizeAbs resolveSize cfgDefault ratTrunc
  norm_num

theorem wsizeAbs_cfgDefault_100 : wsizeAbs cfgDefault 100 = 60 := by
  unfold wsizeAbs resolveSize cfgDefault ratTrunc
  norm_num

theorem hsizeAbs_cfgDefault_100 : hsizeAbs cfgDefault 100 = 10 := by
  unfold hsizeAbs resolveSize cfgDefault ratTrunc
  norm_num

theorem split_cfgDefault_10 :
    split cfgDefault 10 = Except.error Err.insufficientData := by
  unfold split
  rw [if_neg, if_pos]
  · unfold totalRequired
    rw [wsizeAbs_cfgDefault_10, hsizeAbs_cfgDefault_10]
    decide
  · rw [wsizeAbs_cfgDefault_10, hsizeAbs_cfgDefault_10]
    decide

theorem split_cfgDefault_100 :
    split cfgDefault 100 = Except.ok (foldsOf cfgDefault 100) := by
  rw [split_ok_iff]
  refine ⟨?_, ?_, ?_, rfl⟩
  · rw [wsizeAbs_cfgDefault_100]
    decide
  · rw [hsizeAbs_cfgDefault_100]
    decide
  · unfold totalRequired
    rw [wsizeAbs_cfgDefault_100, hsizeAbs_cfgDefault_100]
    decide

theorem preview_cfgDefault_10_x :
    preview cfgDefault 10 80 "x" '=' '-' =
      Except.ok ["RollingWindowSplit error: " ++ errMsg Err.insufficientData,
        "Hint: Try reducing n_splits, window_size, or horizon."] := by
  unfold preview
  rw [split_cfgDefault_10]

end RollingWindowSplit

namespace RollingWindowSplit

/-- Witness for C1 at the default configuration and `n = 100`. -/
theorem c1_witness : (foldsOf cfgDefault 100).length = 5 :=
  (c1_split_fold_geometry 5 (Size.fraction (6/10)) (Size.fraction (1/10)) 0
    cfgDefault 100 (foldsOf cfgDefault 100) init_cfgDefault split_cfgDefault_100).1

/-- Witness for C2 at the default configuration and `n = 10` (too short). -/
theorem c2_witness : split cfgDefault 10 = Except.error Err.insufficientData := by
  have h := c2_insufficient_data_iff 5 (Size.fraction (6/10)) (Size.fraction (1/10)) 0
    cfgDefault 10 init_cfgDefault
    (by rw [wsizeAbs_cfgDefault_10]; decide)
    (by rw [hsizeAbs_cfgDefault_10]; decide)
  exact h.1.mpr (by rw [wsizeAbs_cfgDefault_10, hsizeAbs_cfgDefault_10]; decide)

/-- Witness for C3 at the default configuration and `n = 100`. -/
theorem c3_witness : wsizeAbs cfgDefault 100 = ⌊(6/10 : Rat) * ((100 : Nat) : Rat)⌋ :=
  (c3_resolution_and_geometry_error 5 (Size.fraction (6/10)) (Size.fraction (1/10)) 0
    cfgDefault 100 init_cfgDefault).1 (6/10) rfl

/-- Witness for C4 at the default configuration and `n = 100`. -/
theorem c4_witness :
    stepOf cfgDefault 100 * (cfgDefault.n_splits - 1) + wsizeAbs cfgDefault 100 +
      cfgDefault.gap + hsizeAbs cfgDefault 100 ≤ ((100 : Nat) : Int) :=
  (c4_index_bounds_no_leakage 5 (Size.fraction (6/10)) (Size.fraction (1/10)) 0
    cfgDefault 100 (foldsOf cfgDefault 100) init_cfgDefault split_cfgDefault_100).1

/-- Witness for C7: an InsufficientData failure inside `preview` is converted
to diagnostic output. -/
theorem c7_witness :
    preview cfgDefault 10 80 "default" '=' '-' =
      Except.ok ["RollingWindowSplit error: " ++ errMsg Err.insufficientData,
        "Hint: Try reducing n_splits, window_size, or horizon."] :=
  (c7_preview_catches_data_errors cfgDefault 10 80 "default" '=' '-'
    Err.insufficientData split_cfgDefault_10 (Or.inr rfl)).1

/-- Counterexample to C8 as stated: with the default configuration and only
10 samples, fold generation fails first, so `preview` with the invalid style
"x" returns normally instead of failing with InvalidConfig. -/
theorem c8_counterexample :
    ("x" ≠ "default" ∧ "x" ≠ "bar") ∧
    init 5 (Size.fraction (6/10)) (Size.fraction (1/10)) 0 = Except.ok cfgDefault ∧
    preview cfgDefault 10 80 "x" '=' '-' ≠ Except.error Err.invalidConfig := by
  refine ⟨⟨by decide, by decide⟩, init_cfgDefault, ?_⟩
  intro hcon
  rw [preview_cfgDefault_10_x] at hcon
  exact Except.noConfusion hcon

/-- Witness for the amended C8: a successful generation followed by the
invalid style "x" fails with InvalidConfig. -/
theorem c8_witness :
    preview cfgDefault 100 80 "x" '=' '-' = Except.error Err.invalidConfig :=
  c8_amended_style_validation cfgDefault 100 (foldsOf cfgDefault 100) 80 "x" '=' '-'
    split_cfgDefault_100 (by decide) (by decide)

/-- Witness for C9 at the default configuration, `n = 100`, `width = 80`. -/
theorem c9_witness :
    (barLineFor 100 80 '=' '-' (foldAt cfgDefault 100 0)).length = (80 : Int).toNat :=
  (c9_bar_cells_in_bounds 5 (Size.fraction (6/10)) (Size.fraction (1/10)) 0
    cfgDefault 100 (foldsOf cfgDefault 100) 80 '=' '-'
    init_cfgDefault split_cfgDefault_100 (by decide)
    (foldAt cfgDefault 100 0) (mem_foldsOf.mpr ⟨0, by decide, rfl⟩)).2.2.2.2

/-- Witness for C10 at the default configuration and `n = 100`. -/
theorem c10_witness : 1 ≤ stepOf cfgDefault 100 :=
  (c10_step_positive_distinct_folds 5 (Size.fraction (6/10)) (Size.fraction (1/10)) 0
    cfgDefault 100 (foldsOf cfgDefault 100) init_cfgDefault split_cfgDefault_100).1

end RollingWindowSplit
